import Mathlib

/-!
Verification of the pulpcore declarative-content ingestion core.

This file shallowly embeds the two pipeline stages of
`src/plugin/pulpcore/plugin/stages/content_unit_stages.py`
(`query_existing_content_units` and `content_unit_saver`), the repository
version tasks of `src/pulpcore/app/tasks/repository.py` (`delete_version`,
`add_and_remove`), and the artifact repair engine (`_repair_ca`,
`_repair_artifacts_for_content`) of the same file, and proves or refutes
the specification claims about them.

Conventions of the embedding:
* Python strings and uuids are coded as `Nat`.
* A queue value is `Option DeclarativeContent`; `none` is the `None`
  shutdown sentinel.
* Content attributes are a total attribute vector `attrs : List Nat`,
  read with `getattr` (index out of range reads 0); the per-type natural
  key registry is a parameter `nkf : Nat → List Nat` mapping a content
  type tag to the list of its natural-key field indices (the spec's
  "registry mapping a type tag to its natural-key field list").
* A stage's nondeterministic drain-then-batch scheduling is modelled by
  quantifying over the list of drained batches that partition the input
  stream in arrival order.
* `transaction.atomic` is modelled by running the batch body in `Except`
  and discarding the candidate store on `error`.
-/

set_option autoImplicit false

/-- One stored file plus its checksums, `pulpcore.app.models.Artifact`:
identified by sha256, also carrying md5/sha1/sha224/sha384/sha512 and a size. -/
structure Artifact where
  size : Nat
  md5 : Nat
  sha1 : Nat
  sha224 : Nat
  sha256 : Nat
  sha384 : Nat
  sha512 : Nat
  deriving DecidableEq

/-- `pulpcore.plugin.stages.DeclarativeArtifact`: one file of a content unit,
with its source url, relative path, artifact and originating remote. -/
structure DeclarativeArtifact where
  artifact : Artifact
  url : Nat
  relative_path : Nat
  remote : Nat
  deriving DecidableEq

/-- A content unit record. `ctype` is the concrete content type tag
(`type(content)` in the Python), `adding` mirrors `content._state.adding`
(`true` for an unsaved candidate), `pk` is meaningful once saved, and
`attrs` is the attribute vector read by `getattr`. -/
structure Content where
  ctype : Nat
  adding : Bool
  pk : Nat
  attrs : List Nat
  deriving DecidableEq

/-- `pulpcore.plugin.stages.DeclarativeContent`: an in-flight unit of work,
holding a content reference and its declarative artifacts. -/
structure DeclarativeContent where
  content : Content
  d_artifacts : List DeclarativeArtifact
  deriving DecidableEq

/-- `getattr(content, field)` on the total attribute vector. -/
def getattr (c : Content) (f : Nat) : Nat :=
  c.attrs.getD f 0

/-- `pulpcore.plugin.models.ContentArtifact`: link of one Content and one
Artifact at a relative path. -/
structure ContentArtifact where
  pk : Nat
  content : Content
  artifact : Artifact
  relative_path : Nat
  deriving DecidableEq

/-- The provenance payload staged for one RemoteArtifact: url, size, all
checksum fields copied from the Artifact, and the originating remote. -/
structure RemoteArtifactData where
  url : Nat
  size : Nat
  md5 : Nat
  sha1 : Nat
  sha224 : Nat
  sha256 : Nat
  sha384 : Nat
  sha512 : Nat
  remote : Nat
  deriving DecidableEq

/-- `pulpcore.plugin.models.RemoteArtifact`: provenance row linking a
ContentArtifact to the data of one remote source. -/
structure RemoteArtifact where
  content_artifact : ContentArtifact
  dat : RemoteArtifactData
  deriving DecidableEq

/-- The relational content store seen by the two stages: saved Content rows,
ContentArtifact rows, RemoteArtifact rows, and a primary-key counter. -/
structure Store where
  contents : List Content
  cas : List ContentArtifact
  ras : List RemoteArtifact
  nextPk : Nat
  deriving DecidableEq

/-- `content.natural_key_dict()`: the natural-key fields of the unit's type
paired with the unit's values for them. -/
def natural_key_dict (nkf : Nat → List Nat) (c : Content) : List (Nat × Nat) :=
  (nkf c.ctype).map (fun f => (f, getattr c f))

/-- One update of the `content_q_by_type` defaultdict:
`content_q_by_type[t] = content_q_by_type[t] | Q(**unit_key)`.  Accessing the
defaultdict creates the key (seeded with the never-matching `Q(pk=None)`) even
when `unit_key` is empty; OR-ing an empty `Q()` leaves the query unchanged, so
only non-empty unit keys are appended to the disjunction. -/
def qInsert (t : Nat) (uk : List (Nat × Nat)) :
    List (Nat × List (List (Nat × Nat))) → List (Nat × List (List (Nat × Nat)))
  | [] => [(t, if uk.isEmpty then [] else [uk])]
  | (t', d) :: rest =>
    if t' = t then (t', if uk.isEmpty then d else d ++ [uk]) :: rest
    else (t', d) :: qInsert t uk rest

/-- The `content_q_by_type` map built from a drained batch, in key insertion
order; each entry produces exactly one `model_type.objects.filter(...)` call.
Sentinels (`None`) only set the shutdown flag and contribute nothing. -/
def buildQ (nkf : Nat → List Nat) (batch : List (Option DeclarativeContent)) :
    List (Nat × List (List (Nat × Nat))) :=
  batch.foldl
    (fun acc e =>
      match e with
      | none => acc
      | some dc => qInsert dc.content.ctype (natural_key_dict nkf dc.content) acc)
    []

/-- Whether a saved record satisfies one `Q(**unit_key)` conjunct. -/
def ukMatches (r : Content) (uk : List (Nat × Nat)) : Bool :=
  uk.all (fun p => getattr r p.1 == p.2)

/-- Semantics of `model_type.objects.filter(content_q_by_type[model_type])`:
the saved rows of that type matching the disjunction of unit keys (the
`Q(pk=None)` seed matches no row, so an empty disjunction returns nothing). -/
def queryResults (db : Store) (t : Nat) (disj : List (List (Nat × Nat))) :
    List Content :=
  db.contents.filter (fun r => r.ctype == t && disj.any (ukMatches r))

/-- The re-check loop `for field in result.natural_key_fields(): ...`:
all natural-key fields of the returned record (per the record's own type)
equal the corresponding attributes of the candidate. -/
def nkMatches (nkf : Nat → List Nat) (r c : Content) : Bool :=
  (nkf r.ctype).all (fun f => getattr c f == getattr r f)

/-- The body of the innermost scan for one returned record applied to one
queue value: sentinels are skipped, and a matching entry's content reference
is replaced by the record. -/
def applyOne (nkf : Nat → List Nat) (r : Content) :
    Option DeclarativeContent → Option DeclarativeContent
  | none => none
  | some dc =>
    if nkMatches nkf r dc.content then some { dc with content := r } else some dc

/-- One returned record scanned over the whole drained batch. -/
def applyResult (nkf : Nat → List Nat) (r : Content)
    (batch : List (Option DeclarativeContent)) : List (Option DeclarativeContent) :=
  batch.map (applyOne nkf r)

/-- Processing of one drained batch by `query_existing_content_units`
(lines 48-70): build the per-type disjunctive queries, then for every type and
every returned record scan the batch and replace matching content references. -/
def resolveBatch (nkf : Nat → List Nat) (db : Store)
    (batch : List (Option DeclarativeContent)) : List (Option DeclarativeContent) :=
  (buildQ nkf batch).foldl
    (fun b td => (queryResults db td.1 td.2).foldl (fun b r => applyResult nkf r b) b)
    batch

/-- All records returned by the issued queries, in iteration order. -/
def allResults (nkf : Nat → List Nat) (db : Store)
    (batch : List (Option DeclarativeContent)) : List Content :=
  (buildQ nkf batch).foldl (fun acc td => acc ++ queryResults db td.1 td.2) []

/-- A full run of the `query_existing_content_units` stage over the drained
batches of its input stream: each batch is resolved and forwarded whole
(line 71 puts every element of the batch, the sentinel included), the loop
breaks after a batch that contained the sentinel, and one final `None` is put
on the output queue (line 76). -/
def query_existing_content_units (nkf : Nat → List Nat) (db : Store) :
    List (List (Option DeclarativeContent)) → List (Option DeclarativeContent)
  | [] => []
  | b :: bs =>
    let out := resolveBatch nkf db b
    if b.any Option.isNone then out ++ [none]
    else out ++ query_existing_content_units nkf db bs

/-! ## The content_unit_saver stage (lines 79-166) -/

/-- The single exception the saver batch body can raise inside the
transaction: `remote_artifact_map.pop(...)` on an absent key. -/
inductive SaverErr where
  | keyError
  deriving DecidableEq

/-- `remote_artifact_map[rel_path] = remote_artifact_data`: Python dict
assignment, overwriting an existing binding for the same key. -/
def mapInsert (k : Nat) (v : RemoteArtifactData) :
    List (Nat × RemoteArtifactData) → List (Nat × RemoteArtifactData)
  | [] => [(k, v)]
  | (k', v') :: rest =>
    if k' = k then (k, v) :: rest else (k', v') :: mapInsert k v rest

/-- `remote_artifact_map.pop(rel_path)`: removes and returns the binding,
or fails with a KeyError when the key is absent. -/
def mapPop (k : Nat) :
    List (Nat × RemoteArtifactData) →
      Option (RemoteArtifactData × List (Nat × RemoteArtifactData))
  | [] => none
  | (k', v') :: rest =>
    if k' = k then some (v', rest)
    else
      match mapPop k rest with
      | none => none
      | some (v, m) => some (v, (k', v') :: m)

/-- The RemoteArtifact provenance data staged for one DeclarativeArtifact
(lines 135-145): url, size, every checksum field copied from the Artifact,
and the originating remote. -/
def remote_artifact_data (da : DeclarativeArtifact) : RemoteArtifactData :=
  { url := da.url
    size := da.artifact.size
    md5 := da.artifact.md5
    sha1 := da.artifact.sha1
    sha224 := da.artifact.sha224
    sha256 := da.artifact.sha256
    sha384 := da.artifact.sha384
    sha512 := da.artifact.sha512
    remote := da.remote }

/-- The ContentArtifact constructed for one DeclarativeArtifact of a freshly
saved content unit (lines 129-133); its pk is assigned later by bulk_create. -/
def mkContentArtifact (c : Content) (da : DeclarativeArtifact) : ContentArtifact :=
  { pk := 0
    content := c
    artifact := da.artifact
    relative_path := da.relative_path }

/-- Result of the first loop of the saver's transaction body. -/
structure SavePhaseOut where
  db : Store
  batch : List (Option DeclarativeContent)
  bulk : List ContentArtifact
  map : List (Nat × RemoteArtifactData)

/-- Lines 122-147: walk the drained batch; a sentinel is skipped (it only
sets the shutdown flag), an already-saved unit is passed through untouched,
and an unsaved candidate is saved (pk assigned, `adding` cleared, row
inserted) after which each of its DeclarativeArtifacts appends one
ContentArtifact to the bulk list and stages its RemoteArtifact data in
`remote_artifact_map` under the key `content_artifact.relative_path`. -/
def savePhase (db : Store) (m : List (Nat × RemoteArtifactData)) :
    List (Option DeclarativeContent) → SavePhaseOut
  | [] => { db := db, batch := [], bulk := [], map := m }
  | none :: rest =>
    let o := savePhase db m rest
    { o with batch := none :: o.batch }
  | some dc :: rest =>
    if dc.content.adding then
      let c : Content := { dc.content with adding := false, pk := db.nextPk }
      let db1 : Store :=
        { db with contents := db.contents ++ [c], nextPk := db.nextPk + 1 }
      let bulk0 := dc.d_artifacts.map (mkContentArtifact c)
      let m1 := dc.d_artifacts.foldl
        (fun acc da => mapInsert da.relative_path (remote_artifact_data da) acc) m
      let o := savePhase db1 m1 rest
      { o with
        batch := some { dc with content := c } :: o.batch
        bulk := bulk0 ++ o.bulk }
    else
      let o := savePhase db m rest
      { o with batch := some dc :: o.batch }

/-- `ContentArtifact.objects.bulk_create(content_artifact_bulk)` (line 149):
inserts the rows, assigning pks, and returns the created rows in order. -/
def bulk_create_cas (db : Store) :
    List ContentArtifact → Store × List ContentArtifact
  | [] => (db, [])
  | ca :: rest =>
    let ca' := { ca with pk := db.nextPk }
    let db1 : Store := { db with cas := db.cas ++ [ca'], nextPk := db.nextPk + 1 }
    let p := bulk_create_cas db1 rest
    (p.1, ca' :: p.2)

/-- Lines 149-154: for each created ContentArtifact, pop its pending
RemoteArtifact data from `remote_artifact_map` by `relative_path` and build
the RemoteArtifact row; a missing key raises KeyError. -/
def pairPhase :
    List ContentArtifact → List (Nat × RemoteArtifactData) →
      Except SaverErr (List RemoteArtifact)
  | [], _ => Except.ok []
  | ca :: rest, m =>
    match mapPop ca.relative_path m with
    | none => Except.error SaverErr.keyError
    | some (d, m') =>
      match pairPhase rest m' with
      | Except.error e => Except.error e
      | Except.ok ras => Except.ok ({ content_artifact := ca, dat := d } :: ras)

/-- The body of `with transaction.atomic():` (lines 121-156) for one drained
batch: save new content units and build the ContentArtifact bulk and the
remote-artifact map, bulk-create the ContentArtifact rows, pair each created
row with its pending provenance data, and bulk-create the RemoteArtifact
rows.  Returns the updated store and the mutated batch, or the exception. -/
def commitBatch (db : Store) (batch : List (Option DeclarativeContent)) :
    Except SaverErr (Store × List (Option DeclarativeContent)) :=
  let o := savePhase db [] batch
  let p := bulk_create_cas o.db o.bulk
  match pairPhase p.2 o.map with
  | Except.error e => Except.error e
  | Except.ok ras =>
    Except.ok ({ p.1 with ras := p.1.ras ++ ras }, o.batch)

/-- `with transaction.atomic():` around the batch body: on an exception every
write of the batch is rolled back, so the store is unchanged and no batch is
forwarded (the exception propagates out of the stage). -/
def saverTxn (db : Store) (batch : List (Option DeclarativeContent)) :
    Store × Option (List (Option DeclarativeContent)) :=
  match commitBatch db batch with
  | Except.error _ => (db, none)
  | Except.ok r => (r.1, some r.2)

/-- Convenience Bool: did the saver's transaction body raise? -/
def commitFailed (db : Store) (batch : List (Option DeclarativeContent)) : Bool :=
  match commitBatch db batch with
  | Except.error _ => true
  | Except.ok _ => false

/-- A full run of the `content_unit_saver` stage over the drained batches of
its input stream: each batch is committed in one transaction, the non-sentinel
items of the mutated batch are forwarded in order (lines 158-161 skip `None`),
the loop breaks after a batch that contained the sentinel, and one final
`None` is put on the output queue (line 165).  An exception aborts the stage
with nothing further forwarded. -/
def content_unit_saver (db : Store) :
    List (List (Option DeclarativeContent)) →
      Store × List (Option DeclarativeContent)
  | [] => (db, [])
  | b :: bs =>
    match commitBatch db b with
    | Except.error _ => (db, [])
    | Except.ok r =>
      let out := r.2.filter (fun e => !e.isNone)
      if b.any Option.isNone then (r.1, out ++ [none])
      else
        let rest := content_unit_saver r.1 bs
        (rest.1, out ++ rest.2)

/-! ## The artifact repair engine (`src/pulpcore/app/tasks/repository.py`) -/

/-- Outcome of `downloader.run()` for one RemoteArtifact source: an exception,
or a downloaded file with its computed sha256 and its data. -/
inductive DlResult where
  | err : DlResult
  | ok (sha256 : Nat) (data : Nat) : DlResult
  deriving DecidableEq

/-- An operation performed on the artifact's stored file by `_repair_ca`:
`file.delete(save=False)` or `file.save(filename, src, save=False)`. -/
inductive FileOp where
  | delete : FileOp
  | write (data : Nat) : FileOp
  deriving DecidableEq

/-- Does a download outcome carry the expected sha256 digest? -/
def goodDl (expected : Nat) : DlResult → Bool
  | DlResult.err => false
  | DlResult.ok s _ => s == expected

/-- The `async for remote_artifact in remote_artifacts` loop of `_repair_ca`
(lines 76-96): each source is tried in stored order; a failed download is
logged and the next source tried; a download whose sha256 equals the
artifact's recorded sha256 replaces the stored file (delete then save) and the
loop returns True; a digest mismatch performs no file operation and the next
source is tried; when the loop exhausts, the file is deleted and the result is
False.  Returns (number of sources tried, file operations, repaired flag). -/
def repairLoop (expected : Nat) : List DlResult → Nat × List FileOp × Bool
  | [] => (0, [FileOp.delete], false)
  | DlResult.err :: rest =>
    let r := repairLoop expected rest
    (r.1 + 1, r.2)
  | DlResult.ok s d :: rest =>
    if s = expected then (1, [FileOp.delete, FileOp.write d], true)
    else
      let r := repairLoop expected rest
      (r.1 + 1, r.2)

/-- `_repair_ca(content_artifact)` (lines 63-96): with no RemoteArtifact
source at all (the `aexists` guard), the stored file is deleted and False
returned without any download; otherwise the source iteration loop runs. -/
def repair_ca (expected : Nat) (sources : List DlResult) :
    Nat × List FileOp × Bool :=
  if sources.isEmpty then (0, [FileOp.delete], false)
  else repairLoop expected sources

/-! ## Repository version tasks (`src/pulpcore/app/tasks/repository.py`) -/

/-- A RepositoryVersion row as seen by `delete_version`: pk, owning
repository, number, and completeness. -/
structure RVersion where
  pk : Nat
  repo : Nat
  number : Nat
  complete : Bool
  deriving DecidableEq

/-- The RepositoryVersion table seen by `delete_version`. -/
structure VersionTable where
  versions : List RVersion
  deriving DecidableEq

/-- `models.RepositoryVersion.objects.get(pk=pk)` returning `none` on
`DoesNotExist`. -/
def findVersion (db : VersionTable) (pk : Nat) : Option RVersion :=
  db.versions.find? (fun v => v.pk == pk)

/-- Modelled from the spec: `repository.versions.complete().count()` — the
`complete()` queryset method lives in `pulpcore.app.models.repository`, which
is not under src/; per the spec a version is either complete (durable) or
in-progress, so the count is the number of complete versions of the
repository. -/
def completeCount (db : VersionTable) (repo : Nat) : Nat :=
  (db.versions.filter (fun v => v.repo == repo && v.complete)).length

/-- Outcome of `delete_version`: a logged no-op, a raised ValidationError, or
a performed deletion. -/
inductive DeleteOutcome where
  | noop : DeleteOutcome
  | validationError : DeleteOutcome
  | deleted : DeleteOutcome
  deriving DecidableEq

/-- `delete_version(pk)` (lines 22-60): inside one transaction, a missing
version is a logged no-op; a repository with at most one complete version
raises ValidationError (rolling the transaction back, so no state changes);
otherwise the version row is deleted (`version.delete()` squashes its changes
into the next newer version — content squash mechanics are outside this
model, the version row removal is what is observable here). -/
def delete_version (db : VersionTable) (pk : Nat) : VersionTable × DeleteOutcome :=
  match findVersion db pk with
  | none => (db, DeleteOutcome.noop)
  | some v =>
    if completeCount db v.repo ≤ 1 then (db, DeleteOutcome.validationError)
    else
      ({ versions := db.versions.filter (fun w => w.pk != pk) },
        DeleteOutcome.deleted)

/-- A RepositoryVersion of the single repository handled by
`add_and_remove`, with its materialized content set. -/
structure RVer where
  pk : Nat
  number : Nat
  complete : Bool
  content : List Nat
  deriving DecidableEq

/-- The state seen by `add_and_remove`: the repository's versions and the
Content table (pks of existing content rows, used by `pk__in` filters). -/
structure RepoState where
  versions : List RVer
  contentTable : List Nat
  deriving DecidableEq

/-- One entry of the `remove_content_units` argument: the special string
`"*"` or a content pk. -/
inductive RemoveSpec where
  | star : RemoveSpec
  | pk (id : Nat) : RemoveSpec
  deriving DecidableEq

/-- Modelled from the spec: `Repository.latest_version()` lives in
`pulpcore.app.models.repository` (not under src/); per the spec it is the
version with the highest number among complete versions, none if there is no
complete version. -/
def latest_version (db : RepoState) : Option RVer :=
  (db.versions.filter (fun v => v.complete)).foldl
    (fun acc v =>
      match acc with
      | none => some v
      | some w => if w.number < v.number then some v else acc)
    none

/-- The content pks of the latest version, empty when there is none. -/
def latestContent (db : RepoState) : List Nat :=
  match latest_version db with
  | some l => l.content
  | none => []

/-- Lines 229-234: if `"*"` is in `remove_content_units`, the removal list is
resolved at call time to the pks of the latest version's content (empty when
there is no latest version); otherwise the given pks are used as they are. -/
def resolveRemove (db : RepoState) (removeL : List RemoveSpec) : List Nat :=
  if RemoveSpec.star ∈ removeL then latestContent db
  else
    removeL.filterMap (fun r =>
      match r with
      | RemoveSpec.star => none
      | RemoveSpec.pk i => some i)

/-- `models.Content.objects.filter(pk__in=ids)`: the existing content rows
among the requested pks. -/
def filterExisting (db : RepoState) (ids : List Nat) : List Nat :=
  db.contentTable.filter (fun c => decide (c ∈ ids))

/-- Modelled from the spec: `new_version.remove_content(queryset)` lives in
`pulpcore.app.models.repository` (not under src/); it removes the queryset's
content from the version's content set. -/
def remove_content (ver qs : List Nat) : List Nat :=
  ver.filter (fun c => decide (c ∉ qs))

/-- Modelled from the spec: `new_version.add_content(queryset)` lives in
`pulpcore.app.models.repository` (not under src/); it adds the queryset's
content to the version's content set (a membership relation, so adding
already-present content changes nothing). -/
def add_content (ver qs : List Nat) : List Nat :=
  ver ++ qs.filter (fun c => decide (c ∉ ver))

/-- Modelled from the spec: `repository.new_version(base_version=...)` is not
under src/; per the spec the new version is derived from `base_version`, or
from the current latest version if unset (empty content when there is no
latest version). -/
def baseContent (db : RepoState) (base : Option RVer) : List Nat :=
  match base with
  | some v => v.content
  | none => latestContent db

/-- `add_and_remove(repository_pk, add, remove, base_version_pk)` (lines
208-238): resolve the base version (`get` raises DoesNotExist for an absent
pk, modelled as `none`), resolve `"*"` in the removal list against the latest
version, then build the one new version by first removing then adding the
existing content rows of the two lists.  Returns the new version's content
set. -/
def add_and_remove (db : RepoState) (addL : List Nat)
    (removeL : List RemoveSpec) (basePk : Option Nat) : Option (List Nat) :=
  match basePk with
  | some b =>
    match db.versions.find? (fun v => v.pk == b) with
    | none => none
    | some v =>
      let removeIds := resolveRemove db removeL
      some (add_content (remove_content (baseContent db (some v))
        (filterExisting db removeIds)) (filterExisting db addL))
  | none =>
    let removeIds := resolveRemove db removeL
    some (add_content (remove_content (baseContent db none)
      (filterExisting db removeIds)) (filterExisting db addL))

/-! ## Repair scope (`_repair_artifacts_for_content`, lines 113-124) -/

/-- A ContentArtifact row as seen by the repair scope query: its content pk
and its possibly-null artifact. -/
structure RepairCA where
  content : Nat
  artifact : Option Nat
  deriving DecidableEq

/-- The rows consulted when computing the repair scope: ContentArtifact rows
and the Content table with each row's domain. -/
structure RepairStore where
  cas : List RepairCA
  contents : List (Nat × Nat)
  deriving DecidableEq

/-- `models.Content.objects.filter(pulp_domain=domain)`: pks of the domain's
content. -/
def domainContent (db : RepairStore) (domain : Nat) : List Nat :=
  (db.contents.filter (fun c => c.2 == domain)).map (fun c => c.1)

/-- Lines 117-124 of `_repair_artifacts_for_content`: start from the
ContentArtifact rows with a non-null artifact; if the subset argument is
`None` or matches no row (`not await subset.aexists()`), replace it by every
Content in the current domain; then keep the rows whose content is in the
subset. -/
def repairQuerySet (db : RepairStore) (domain : Nat)
    (subset : Option (List Nat)) : List RepairCA :=
  let base := db.cas.filter (fun ca => !ca.artifact.isNone)
  let s :=
    match subset with
    | none => domainContent db domain
    | some l => if l.isEmpty then domainContent db domain else l
  base.filter (fun ca => decide (ca.content ∈ s))

/-! ## Concrete fixtures -/

/-- A registry in which every content type has an empty natural key. -/
def nkf0 : Nat → List Nat := fun _ => []

/-- A registry in which every content type has the single natural-key field 0. -/
def nkf1 : Nat → List Nat := fun _ => [0]

/-- The empty content store. -/
def store0 : Store := { contents := [], cas := [], ras := [], nextPk := 0 }

/-- A minimal unsaved content unit of type 0 with no artifacts. -/
def dc0 : DeclarativeContent :=
  { content := { ctype := 0, adding := true, pk := 0, attrs := [] }, d_artifacts := [] }

/-- An artifact with all checksum fields 1. -/
def artP : Artifact :=
  { size := 1, md5 := 1, sha1 := 1, sha224 := 1, sha256 := 1, sha384 := 1, sha512 := 1 }

/-- An artifact with all checksum fields 2. -/
def artQ : Artifact :=
  { size := 2, md5 := 2, sha1 := 2, sha224 := 2, sha256 := 2, sha384 := 2, sha512 := 2 }

/-- An unsaved content unit with one declarative artifact at relative path 5. -/
def dcP : DeclarativeContent :=
  { content := { ctype := 0, adding := true, pk := 0, attrs := [1] }
    d_artifacts := [{ artifact := artP, url := 10, relative_path := 5, remote := 100 }] }

/-- A distinct unsaved content unit whose single declarative artifact shares
relative path 5 with `dcP`. -/
def dcQ : DeclarativeContent :=
  { content := { ctype := 0, adding := true, pk := 0, attrs := [2] }
    d_artifacts := [{ artifact := artQ, url := 11, relative_path := 5, remote := 101 }] }

/-- A saved content record of type 0 whose natural-key field 0 has value 7. -/
def rX : Content := { ctype := 0, adding := false, pk := 7, attrs := [7] }

/-- An unsaved candidate of type 0 with natural-key value 7. -/
def dcA : DeclarativeContent :=
  { content := { ctype := 0, adding := true, pk := 0, attrs := [7] }, d_artifacts := [] }

/-- An unsaved candidate of type 1 (a different concrete type) whose
attribute 0 also has value 7. -/
def dcB : DeclarativeContent :=
  { content := { ctype := 1, adding := true, pk := 0, attrs := [7] }, d_artifacts := [] }

/-- A store holding only the saved record `rX`. -/
def storeX : Store := { contents := [rX], cas := [], ras := [], nextPk := 8 }

/-- An empty RepositoryVersion table. -/
def vtA : VersionTable := { versions := [] }

/-- A version table whose one repository has exactly one complete version. -/
def vtB : VersionTable := { versions := [{ pk := 1, repo := 0, number := 1, complete := true }] }

/-- A version table whose one repository has two complete versions. -/
def vtC : VersionTable :=
  { versions := [{ pk := 1, repo := 0, number := 1, complete := true },
                 { pk := 2, repo := 0, number := 2, complete := true }] }

/-! ## Claim C1 -/

/-- Claim C1 (code bug): the spec's shutdown protocol demands that every
stage put exactly one sentinel on its output queue, but
`query_existing_content_units` forwards the batch's `None` inside its
forwarding loop (line 71 has no `None` check, unlike line 159 of
`content_unit_saver`) and then puts the final `None` of line 76, so for the
input stream `[item, None]` drained in one batch its output queue receives
the sentinel twice, while `content_unit_saver` on the same input emits it exactly
once. -/
theorem c1_query_stage_duplicates_sentinel :
    query_existing_content_units nkf0 store0 [[some dc0, none]] =
      [some dc0, none, none] ∧
    ((query_existing_content_units nkf0 store0 [[some dc0, none]]).filter
        Option.isNone).length = 2 ∧
    ((content_unit_saver store0 [[some dc0, none]]).2.filter
        Option.isNone).length = 1 := by
  decide

/-! ## Claim C2 -/

/-- Claim C2 (code bug): `content_unit_saver` keys `remote_artifact_map` by
`relative_path` alone (line 146-147), not by the pair (content,
relative_path); for a batch of two distinct new content units sharing one
relative path, the second map assignment overwrites the first and the second
`pop` (line 150) raises KeyError, so the whole batch's transaction fails.  A
singleton batch commits fine, showing the shared relative path is what
breaks. -/
theorem c2_shared_relative_path_crashes_saver_batch :
    commitFailed store0 [some dcP, some dcQ] = true ∧
    dcP.content ≠ dcQ.content ∧
    dcP.d_artifacts.map DeclarativeArtifact.relative_path =
      dcQ.d_artifacts.map DeclarativeArtifact.relative_path ∧
    commitFailed store0 [some dcP] = false := by
  decide

/-! ## Claim C4, counterexample -/

/-- Claim C4 counterexample: the scan of lines 60-70 never compares the
entry's concrete type with the returned record's type, so the type-0 record
`rX` replaces the content of the type-1 entry `dcB` whose attribute values
coincide — the claim's "only if the entry has the same concrete type" is
false at this input. -/
theorem c4_cross_type_replacement :
    resolveBatch nkf1 storeX [some dcA, some dcB] =
      [some { dcA with content := rX }, some { dcB with content := rX }] ∧
    rX.ctype ≠ dcB.content.ctype := by
  decide

/-! ## Claim C5, counterexample -/

/-- Claim C5 counterexample: a type whose batch entries contribute an empty
natural-key set is not skipped — the defaultdict access of line 56 creates
its key, so line 59 still issues one `objects.filter` call for it (with the
never-matching seed predicate); the claim's "issues no query at all" is false
at this input. -/
theorem c5_empty_key_type_still_queried :
    buildQ nkf0 [some dc0] = [(0, [])] ∧ buildQ nkf0 [some dc0] ≠ [] := by
  decide

/-! ## Claim C7 -/

/-- Claim C7: `delete_version(pk)` is a logged no-op leaving the table
unchanged when no version with that pk exists; it raises ValidationError and
changes nothing (the transaction rolls back) when the version's repository
has at most one complete version; and only otherwise deletes the version row
— the check and the delete run inside the one `transaction.atomic()` block of
lines 39-60. -/
theorem c7_delete_version_cases (db : VersionTable) (pk : Nat) :
    (findVersion db pk = none → delete_version db pk = (db, DeleteOutcome.noop)) ∧
    (∀ v, findVersion db pk = some v → completeCount db v.repo ≤ 1 →
      delete_version db pk = (db, DeleteOutcome.validationError)) ∧
    (∀ v, findVersion db pk = some v → 1 < completeCount db v.repo →
      delete_version db pk =
        ({ versions := db.versions.filter (fun w => w.pk != pk) },
          DeleteOutcome.deleted)) := by
  refine ⟨fun h => ?_, fun v h hle => ?_, fun v h hgt => ?_⟩
  · simp [delete_version, h]
  · simp [delete_version, h, if_pos hle]
  · simp only [delete_version, h]
    rw [if_neg (by omega)]

/-- Witness for C7: the three branches realized on concrete tables. -/
theorem c7_delete_version_cases_witness :
    delete_version vtA 5 = (vtA, DeleteOutcome.noop) ∧
    delete_version vtB 1 = (vtB, DeleteOutcome.validationError) ∧
    delete_version vtC 1 =
      ({ versions := vtC.versions.filter (fun w => w.pk != 1) },
        DeleteOutcome.deleted) :=
  ⟨(c7_delete_version_cases vtA 5).1 (by decide),
   (c7_delete_version_cases vtB 1).2.1 { pk := 1, repo := 0, number := 1, complete := true }
     (by decide) (by decide),
   (c7_delete_version_cases vtC 1).2.2 { pk := 1, repo := 0, number := 1, complete := true }
     (by decide) (by decide)⟩

/-! ## Claim C10 -/

/-- Claim C10: when the repair scope subset is present but empty (for
example one empty repository version's content set), lines 121-124 silently
replace it by every Content in the current domain, so the selected
ContentArtifact rows are exactly those of a global repair of the domain. -/
theorem c10_empty_subset_widens_to_domain (db : RepairStore) (domain : Nat) :
    repairQuerySet db domain (some []) = repairQuerySet db domain none := rfl

/-! ## Claim C6 -/

/-- `repair_ca` runs the source loop whenever there is a source. -/
theorem repair_ca_eq_loop (expected : Nat) (sources : List DlResult) :
    repair_ca expected sources = repairLoop expected sources := by
  cases sources <;> rfl

/-- Claim C6: for an invalid artifact, `_repair_ca` tries the RemoteArtifact
sources in stored order; a failed download or a sha256 mismatch performs no
write and the next source is tried; the stored file is replaced (delete then
write of the downloaded data) exactly on the first source whose digest
matches, after which no further source is tried; and when every source fails
or none exists, the only file operation is the delete and the artifact is
reported unrepaired. -/
theorem c6_repair_source_iteration (expected : Nat) (sources : List DlResult) :
    (∃ pre d post, sources = pre ++ DlResult.ok expected d :: post ∧
        (∀ r ∈ pre, goodDl expected r = false) ∧
        repair_ca expected sources =
          (pre.length + 1, [FileOp.delete, FileOp.write d], true)) ∨
    ((∀ r ∈ sources, goodDl expected r = false) ∧
        repair_ca expected sources = (sources.length, [FileOp.delete], false)) := by
  rw [repair_ca_eq_loop]
  induction sources with
  | nil => exact Or.inr ⟨by simp, rfl⟩
  | cons r rest ih =>
    cases r with
    | err =>
      rcases ih with ⟨pre, d, post, hsplit, hpre, heq⟩ | ⟨hall, heq⟩
      · refine Or.inl ⟨DlResult.err :: pre, d, post, by rw [hsplit]; rfl, ?_, ?_⟩
        · intro x hx
          rcases List.mem_cons.mp hx with h | h
          · rw [h]; rfl
          · exact hpre x h
        · simp [repairLoop, heq]
      · refine Or.inr ⟨?_, ?_⟩
        · intro x hx
          rcases List.mem_cons.mp hx with h | h
          · rw [h]; rfl
          · exact hall x h
        · simp [repairLoop, heq]
    | ok s d0 =>
      by_cases hs : s = expected
      · subst hs
        exact Or.inl ⟨[], d0, rest, rfl, by simp, by simp [repairLoop]⟩
      · rcases ih with ⟨pre, d, post, hsplit, hpre, heq⟩ | ⟨hall, heq⟩
        · refine Or.inl ⟨DlResult.ok s d0 :: pre, d, post, by rw [hsplit]; rfl, ?_, ?_⟩
          · intro x hx
            rcases List.mem_cons.mp hx with h | h
            · rw [h]; simp [goodDl, hs]
            · exact hpre x h
          · simp [repairLoop, hs, heq]
        · refine Or.inr ⟨?_, ?_⟩
          · intro x hx
            rcases List.mem_cons.mp hx with h | h
            · rw [h]; simp [goodDl, hs]
            · exact hall x h
          · simp [repairLoop, hs, heq]

/-! ## Claims C8 and C9 -/

/-- A repository whose latest (and only, complete) version holds content
{10, 11}, with one further existing content row 12. -/
def repoW : RepoState :=
  { versions := [{ pk := 1, number := 1, complete := true, content := [10, 11] }],
    contentTable := [10, 11, 12] }

/-- Claim C8: for an existing content id x present in both the add list and
the remove list, `add_and_remove` applies the removal before the addition
(lines 236-238), so x is present in the new version's content set. -/
theorem c8_remove_then_add_add_wins (db : RepoState) (addL : List Nat)
    (removeL : List RemoveSpec) (basePk : Option Nat) (x : Nat) (res : List Nat)
    (hx : x ∈ addL) (hex : x ∈ db.contentTable)
    (hres : add_and_remove db addL removeL basePk = some res) :
    x ∈ res := by
  have hadd : x ∈ filterExisting db addL := by
    simp [filterExisting, List.mem_filter, hex, hx]
  have key : ∀ ver qs : List Nat, x ∈ qs → x ∈ add_content ver qs := by
    intro ver qs hq
    by_cases hv : x ∈ ver
    · exact List.mem_append.mpr (Or.inl hv)
    · exact List.mem_append.mpr (Or.inr (List.mem_filter.mpr ⟨hq, by simpa using hv⟩))
  cases basePk with
  | none =>
    simp only [add_and_remove] at hres
    have h := Option.some.inj hres
    rw [← h]
    exact key _ _ hadd
  | some b =>
    simp only [add_and_remove] at hres
    cases hfind : db.versions.find? (fun v => v.pk == b) with
    | none => rw [hfind] at hres; exact absurd hres (by simp)
    | some v =>
      rw [hfind] at hres
      have h := Option.some.inj hres
      rw [← h]
      exact key _ _ hadd

/-- Witness for C8: content id 12 is in both the add and the remove list and
ends up present in the new version. -/
theorem c8_remove_then_add_add_wins_witness :
    12 ∈ ([12] : List Nat) ∧
    add_and_remove repoW [12] [RemoveSpec.pk 12] none = some [10, 11, 12] ∧
    12 ∈ ([10, 11, 12] : List Nat) :=
  ⟨by decide, by decide,
    c8_remove_then_add_add_wins repoW [12] [RemoveSpec.pk 12] none 12 [10, 11, 12]
      (by decide) (by decide) (by decide)⟩

/-- `remove_content_units` entries that are explicit pks resolve to
themselves. -/
theorem resolveRemove_map_pk (db : RepoState) (l : List Nat) :
    resolveRemove db (l.map RemoveSpec.pk) = l := by
  rw [resolveRemove, if_neg ?hstar]
  case hstar =>
    intro hc
    rcases List.mem_map.mp hc with ⟨a, _, ha⟩
    exact RemoveSpec.noConfusion ha
  induction l with
  | nil => rfl
  | cons a l ihl => simp only [List.map_cons, List.filterMap_cons]; rw [ihl]

/-- Claim C9: with `"*"` in the remove list, the removal set is resolved at
call time (lines 229-234) to exactly the content ids of the repository's
latest version — the empty set when there is no latest version — so the call
behaves exactly like a call given those ids explicitly. -/
theorem c9_star_resolves_to_latest (db : RepoState) (addL : List Nat)
    (removeL : List RemoveSpec) (basePk : Option Nat)
    (h : RemoveSpec.star ∈ removeL) :
    resolveRemove db removeL = latestContent db ∧
    add_and_remove db addL removeL basePk =
      add_and_remove db addL ((latestContent db).map RemoveSpec.pk) basePk := by
  have h1 : resolveRemove db removeL = latestContent db := by
    rw [resolveRemove, if_pos h]
  have h2 : resolveRemove db ((latestContent db).map RemoveSpec.pk) = latestContent db :=
    resolveRemove_map_pk db (latestContent db)
  refine ⟨h1, ?_⟩
  cases basePk with
  | none => simp only [add_and_remove, h1, h2]
  | some b => simp only [add_and_remove, h1, h2]

/-- Witness for C9: `"*"` against a repository whose latest version holds
{10, 11}. -/
theorem c9_star_resolves_to_latest_witness :
    RemoveSpec.star ∈ [RemoveSpec.star] ∧
    resolveRemove repoW [RemoveSpec.star] = [10, 11] ∧
    add_and_remove repoW [12] [RemoveSpec.star] none =
      add_and_remove repoW [12] (([10, 11] : List Nat).map RemoveSpec.pk) none :=
  ⟨by decide,
    (c9_star_resolves_to_latest repoW [12] [RemoveSpec.star] none (by decide)).1,
    (c9_star_resolves_to_latest repoW [12] [RemoveSpec.star] none (by decide)).2⟩

/-! ## Claim C3, supporting lemmas -/

/-- The first saver loop only appends Content rows: ContentArtifact and
RemoteArtifact tables are untouched, the content table only grows, every
adding unit of the batch gets a content row with its type and attributes, and
every declarative artifact of an adding unit gets a matching entry in the
ContentArtifact bulk list. -/
theorem savePhase_shape :
    ∀ (bs : List (Option DeclarativeContent)) (db : Store)
      (m : List (Nat × RemoteArtifactData)),
      (savePhase db m bs).db.cas = db.cas ∧
      (savePhase db m bs).db.ras = db.ras ∧
      ∃ newCs, (savePhase db m bs).db.contents = db.contents ++ newCs ∧
        ∀ d : DeclarativeContent, some d ∈ bs → d.content.adding = true →
          (∃ c ∈ newCs, c.ctype = d.content.ctype ∧ c.attrs = d.content.attrs) ∧
          ∀ da ∈ d.d_artifacts, ∃ ca ∈ (savePhase db m bs).bulk,
            ca.artifact = da.artifact ∧ ca.relative_path = da.relative_path ∧
            ca.content.ctype = d.content.ctype ∧ ca.content.attrs = d.content.attrs := by
  intro bs
  induction bs with
  | nil =>
    intro db m
    exact ⟨rfl, rfl, [], by simp [savePhase], fun d hd => absurd hd (by simp)⟩
  | cons e rest ih =>
    intro db m
    rcases e with _ | ⟨⟨ct, ad, pk0, at0⟩, das⟩
    · obtain ⟨h1, h2, newCs, h3, h4⟩ := ih db m
      refine ⟨h1, h2, newCs, h3, ?_⟩
      intro d hd hdadd
      rcases List.mem_cons.mp hd with h | h
      · exact absurd h (by simp)
      · exact h4 d h hdadd
    · cases ad with
      | false =>
        obtain ⟨h1, h2, newCs, h3, h4⟩ := ih db m
        refine ⟨h1, h2, newCs, h3, ?_⟩
        intro d hd hdadd
        rcases List.mem_cons.mp hd with h | h
        · rw [show d = ⟨⟨ct, false, pk0, at0⟩, das⟩ from Option.some.inj h] at hdadd
          exact absurd hdadd (by simp)
        · exact h4 d h hdadd
      | true =>
        obtain ⟨h1, h2, newCs, h3, h4⟩ :=
          ih { db with
                contents := db.contents ++ [{ ctype := ct, adding := false, pk := db.nextPk, attrs := at0 }],
                nextPk := db.nextPk + 1 }
            (das.foldl
              (fun acc da => mapInsert da.relative_path (remote_artifact_data da) acc) m)
        refine ⟨h1, h2,
          { ctype := ct, adding := false, pk := db.nextPk, attrs := at0 } :: newCs,
          ?_, ?_⟩
        · exact h3.trans (by simp)
        · intro d hd hdadd
          rcases List.mem_cons.mp hd with h | h
          · rw [show d = ⟨⟨ct, true, pk0, at0⟩, das⟩ from Option.some.inj h]
            constructor
            · exact ⟨_, List.mem_cons_self _ _, rfl, rfl⟩
            · intro da hda
              refine ⟨mkContentArtifact
                  { ctype := ct, adding := false, pk := db.nextPk, attrs := at0 } da,
                ?_, rfl, rfl, rfl, rfl⟩
              exact List.mem_append.mpr (Or.inl (List.mem_map_of_mem _ hda))
          · obtain ⟨hrow, hbulk⟩ := h4 d h hdadd
            refine ⟨?_, ?_⟩
            · obtain ⟨c, hc, hc1, hc2⟩ := hrow
              exact ⟨c, List.mem_cons_of_mem _ hc, hc1, hc2⟩
            · intro da hda
              obtain ⟨ca, hca, hf⟩ := hbulk da hda
              exact ⟨ca, List.mem_append.mpr (Or.inr hca), hf⟩

/-- `bulk_create` of the ContentArtifact rows: the content and RemoteArtifact
tables are untouched, the ContentArtifact table grows by exactly the returned
rows, and every requested row is represented by a returned row with the same
content, artifact and relative path (only the pk is assigned). -/
theorem bulk_create_cas_shape :
    ∀ (l : List ContentArtifact) (db : Store),
      (bulk_create_cas db l).1.contents = db.contents ∧
      (bulk_create_cas db l).1.ras = db.ras ∧
      (bulk_create_cas db l).1.cas = db.cas ++ (bulk_create_cas db l).2 ∧
      ∀ ca0 ∈ l, ∃ ca ∈ (bulk_create_cas db l).2,
        ca.content = ca0.content ∧ ca.artifact = ca0.artifact ∧
        ca.relative_path = ca0.relative_path := by
  intro l
  induction l with
  | nil =>
    intro db
    exact ⟨rfl, rfl, by simp [bulk_create_cas], fun ca0 h => absurd h (by simp)⟩
  | cons ca rest ih =>
    intro db
    obtain ⟨h1, h2, h3, h4⟩ :=
      ih { db with cas := db.cas ++ [{ ca with pk := db.nextPk }], nextPk := db.nextPk + 1 }
    refine ⟨h1, h2, ?_, ?_⟩
    · have hgoal :
        (bulk_create_cas
            { db with cas := db.cas ++ [{ ca with pk := db.nextPk }], nextPk := db.nextPk + 1 }
            rest).1.cas =
          db.cas ++ ({ ca with pk := db.nextPk } ::
            (bulk_create_cas
              { db with cas := db.cas ++ [{ ca with pk := db.nextPk }], nextPk := db.nextPk + 1 }
              rest).2) := by
        rw [h3]; simp
      exact hgoal
    intro ca0 h
    rcases List.mem_cons.mp h with h | h
    · exact ⟨{ ca with pk := db.nextPk }, List.mem_cons_self _ _, by rw [h], by rw [h], by rw [h]⟩
    · obtain ⟨ca', hca', hf⟩ := h4 ca0 h
      exact ⟨ca', List.mem_cons_of_mem _ hca', hf⟩

/-- A successful pairing pass links every created ContentArtifact to exactly
the popped RemoteArtifact rows: every ContentArtifact gets a RemoteArtifact
and every produced RemoteArtifact points at one of the ContentArtifacts. -/
theorem pairPhase_links :
    ∀ (cas : List ContentArtifact) (m : List (Nat × RemoteArtifactData))
      (ras : List RemoteArtifact), pairPhase cas m = Except.ok ras →
      (∀ ca ∈ cas, ∃ ra ∈ ras, ra.content_artifact = ca) ∧
      (∀ ra ∈ ras, ra.content_artifact ∈ cas) := by
  intro cas
  induction cas with
  | nil =>
    intro m ras h
    have : ras = [] := by
      simpa [pairPhase] using h.symm
    rw [this]
    exact ⟨fun ca hca => absurd hca (by simp), fun ra hra => absurd hra (by simp)⟩
  | cons ca rest ih =>
    intro m ras h
    simp only [pairPhase] at h
    rcases hpop : mapPop ca.relative_path m with _ | ⟨d, m'⟩
    · rw [hpop] at h; exact absurd h (by simp)
    · rw [hpop] at h
      replace h :
          (match pairPhase rest m' with
            | Except.error e => Except.error e
            | Except.ok ras0 =>
              Except.ok ({ content_artifact := ca, dat := d } :: ras0)) =
            Except.ok ras := h
      cases hrec : pairPhase rest m' with
      | error e => rw [hrec] at h; exact absurd h (by simp)
      | ok ras' =>
        rw [hrec] at h
        simp only at h
        injection h with hras
        obtain ⟨ih1, ih2⟩ := ih m' ras' hrec
        rw [← hras]
        constructor
        · intro ca0 hca0
          rcases List.mem_cons.mp hca0 with hc | hc
          · exact ⟨{ content_artifact := ca, dat := d }, List.mem_cons_self _ _, hc.symm⟩
          · obtain ⟨ra, hra, he⟩ := ih1 ca0 hc
            exact ⟨ra, List.mem_cons_of_mem _ hra, he⟩
        · intro ra hra
          rcases List.mem_cons.mp hra with hc | hc
          · rw [hc]; exact List.mem_cons_self _ _
          · exact List.mem_cons_of_mem _ (ih2 ra hc)

/-- Claim C3: one saver batch is committed atomically — either the
transaction fails and the store is exactly as before (no Content,
ContentArtifact or RemoteArtifact row of the batch is persisted), or it
succeeds and the store grew by exactly the batch's rows: a content row for
every adding unit, a ContentArtifact row for each of its declarative
artifacts, and RemoteArtifact rows linked one-to-one onto the new
ContentArtifact rows — no partially-linked content is ever observable. -/
theorem c3_saver_batch_atomic (db : Store) (batch : List (Option DeclarativeContent)) :
    (saverTxn db batch).1 = db ∨
    ∃ newCs newCAs newRAs,
      (saverTxn db batch).1.contents = db.contents ++ newCs ∧
      (saverTxn db batch).1.cas = db.cas ++ newCAs ∧
      (saverTxn db batch).1.ras = db.ras ++ newRAs ∧
      (∀ ca ∈ newCAs, ∃ ra ∈ newRAs, ra.content_artifact = ca) ∧
      (∀ ra ∈ newRAs, ra.content_artifact ∈ newCAs) ∧
      ∀ d : DeclarativeContent, some d ∈ batch → d.content.adding = true →
        (∃ c ∈ newCs, c.ctype = d.content.ctype ∧ c.attrs = d.content.attrs) ∧
        ∀ da ∈ d.d_artifacts, ∃ ca ∈ newCAs,
          ca.artifact = da.artifact ∧ ca.relative_path = da.relative_path ∧
          ca.content.ctype = d.content.ctype ∧ ca.content.attrs = d.content.attrs := by
  obtain ⟨hsc, hsr, newCs, hscon, hcomp⟩ := savePhase_shape batch db []
  obtain ⟨hbc, hbr, hbcas, htrans⟩ :=
    bulk_create_cas_shape (savePhase db [] batch).bulk (savePhase db [] batch).db
  cases hpair : pairPhase
      (bulk_create_cas (savePhase db [] batch).db (savePhase db [] batch).bulk).2
      (savePhase db [] batch).map with
  | error e =>
    left
    have hcb : commitBatch db batch = Except.error e := by
      simp only [commitBatch]
      rw [hpair]
    simp [saverTxn, hcb]
  | ok ras =>
    have hcb : commitBatch db batch = Except.ok
        ({ (bulk_create_cas (savePhase db [] batch).db (savePhase db [] batch).bulk).1 with
            ras := (bulk_create_cas (savePhase db [] batch).db
              (savePhase db [] batch).bulk).1.ras ++ ras },
          (savePhase db [] batch).batch) := by
      simp only [commitBatch]
      rw [hpair]
    have hst : (saverTxn db batch).1 =
        { (bulk_create_cas (savePhase db [] batch).db (savePhase db [] batch).bulk).1 with
          ras := (bulk_create_cas (savePhase db [] batch).db
            (savePhase db [] batch).bulk).1.ras ++ ras } := by
      simp [saverTxn, hcb]
    obtain ⟨hlink1, hlink2⟩ := pairPhase_links
      (bulk_create_cas (savePhase db [] batch).db (savePhase db [] batch).bulk).2
      (savePhase db [] batch).map ras hpair
    right
    refine ⟨newCs,
      (bulk_create_cas (savePhase db [] batch).db (savePhase db [] batch).bulk).2,
      ras, ?_, ?_, ?_, hlink1, hlink2, ?_⟩
    · rw [hst]
      exact hbc.trans hscon
    · rw [hst]
      exact hbcas.trans (by rw [hsc])
    · rw [hst]
      show (bulk_create_cas (savePhase db [] batch).db
          (savePhase db [] batch).bulk).1.ras ++ ras = db.ras ++ ras
      rw [hbr, hsr]
    · intro d hd hdadd
      obtain ⟨hrow, hbulk⟩ := hcomp d hd hdadd
      refine ⟨hrow, ?_⟩
      intro da hda
      obtain ⟨ca0, hca0, hf1, hf2, hf3, hf4⟩ := hbulk da hda
      obtain ⟨ca, hca, hg1, hg2, hg3⟩ := htrans ca0 hca0
      exact ⟨ca, hca, hg2.trans hf1, hg3.trans hf2,
        (congrArg Content.ctype hg1).trans hf3, (congrArg Content.attrs hg1).trans hf4⟩

/-! ## Claim C4, supporting lemmas -/

/-- Left folds of list-append accumulate on the right of the initial list. -/
theorem foldl_append_acc {α β : Type} (g : α → List β) :
    ∀ (tds : List α) (init : List β),
      tds.foldl (fun acc td => acc ++ g td) init =
        init ++ tds.foldl (fun acc td => acc ++ g td) [] := by
  intro tds
  induction tds with
  | nil => intro init; simp
  | cons td tds ih =>
    intro init
    rw [List.foldl_cons, List.foldl_cons, ih (init ++ g td), ih ([] ++ g td)]
    simp

/-- A nested fold over groups equals the fold over the concatenation of the
groups. -/
theorem foldl_nested {α β γ : Type} (g : α → List γ) (f : β → γ → β) :
    ∀ (tds : List α) (b : β),
      tds.foldl (fun b td => (g td).foldl f b) b =
        (tds.foldl (fun acc td => acc ++ g td) []).foldl f b := by
  intro tds
  induction tds with
  | nil => intro b; rfl
  | cons td tds ih =>
    intro b
    rw [List.foldl_cons, List.foldl_cons, ih, foldl_append_acc g tds ([] ++ g td)]
    simp [List.foldl_append]

/-- The resolver's nested iteration over per-type query results equals one
fold over all returned records. -/
theorem resolveBatch_eq_fold (nkf : Nat → List Nat) (db : Store)
    (batch : List (Option DeclarativeContent)) :
    resolveBatch nkf db batch =
      (allResults nkf db batch).foldl (fun b r => applyResult nkf r b) batch :=
  foldl_nested (fun (td : Nat × List (List (Nat × Nat))) => queryResults db td.1 td.2)
    (fun b r => applyResult nkf r b) (buildQ nkf batch) batch

/-- A fold of batch-wide scans is the per-entry fold applied entrywise: the
scan mutates each DeclarativeContent independently. -/
theorem foldl_applyResult (nkf : Nat → List Nat) :
    ∀ (rs : List Content) (b : List (Option DeclarativeContent)),
      rs.foldl (fun b r => applyResult nkf r b) b =
        b.map (fun e => rs.foldl (fun e r => applyOne nkf r e) e) := by
  intro rs
  induction rs with
  | nil => intro b; simp
  | cons r rs ih =>
    intro b
    rw [List.foldl_cons, ih (applyResult nkf r b)]
    unfold applyResult
    rw [List.map_map]
    rfl

/-- The whole effect of the resolver's scans on one entry of the batch. -/
def entryResolve (nkf : Nat → List Nat) (rs : List Content)
    (dc : DeclarativeContent) : DeclarativeContent :=
  rs.foldl
    (fun dc r =>
      if nkMatches nkf r dc.content then { dc with content := r } else dc)
    dc

/-- On a non-sentinel entry, the per-entry fold of `applyOne` is
`entryResolve`. -/
theorem foldl_applyOne_some (nkf : Nat → List Nat) :
    ∀ (rs : List Content) (dc : DeclarativeContent),
      rs.foldl (fun e r => applyOne nkf r e) (some dc) =
        some (entryResolve nkf rs dc) := by
  intro rs
  induction rs with
  | nil => intro dc; rfl
  | cons r rs ih =>
    intro dc
    rw [List.foldl_cons]
    have h1 : applyOne nkf r (some dc) =
        some (if nkMatches nkf r dc.content then { dc with content := r } else dc) := by
      by_cases hP : nkMatches nkf r dc.content = true
      · simp [applyOne, hP]
      · simp [applyOne, hP]
    rw [h1, ih]
    rfl

/-- An entry matched by no returned record keeps its candidate unchanged. -/
theorem entryResolve_not_matched (nkf : Nat → List Nat) :
    ∀ (rs : List Content) (dc : DeclarativeContent),
      (∀ r ∈ rs, nkMatches nkf r dc.content = false) →
      entryResolve nkf rs dc = dc := by
  intro rs
  induction rs with
  | nil => intro dc _; rfl
  | cons r rs ih =>
    intro dc h
    have hr := h r (List.mem_cons_self _ _)
    show entryResolve nkf rs
      (if nkMatches nkf r dc.content then { dc with content := r } else dc) = dc
    rw [hr]
    show entryResolve nkf rs dc = dc
    exact ih dc (fun x hx => h x (List.mem_cons_of_mem _ hx))

/-- Once an entry's content is one of the records, it stays one of them. -/
theorem entryResolve_mem (nkf : Nat → List Nat) (S : List Content) :
    ∀ (rs : List Content) (dc : DeclarativeContent),
      (∀ r ∈ rs, r ∈ S) → dc.content ∈ S →
      (entryResolve nkf rs dc).content ∈ S := by
  intro rs
  induction rs with
  | nil => intro dc _ h; exact h
  | cons r rs ih =>
    intro dc hsub h
    show (entryResolve nkf rs
      (if nkMatches nkf r dc.content then { dc with content := r } else dc)).content ∈ S
    by_cases hm : nkMatches nkf r dc.content = true
    · rw [if_pos hm]
      exact ih _ (fun x hx => hsub x (List.mem_cons_of_mem _ hx))
        (hsub r (List.mem_cons_self _ _))
    · rw [if_neg hm]
      exact ih dc (fun x hx => hsub x (List.mem_cons_of_mem _ hx)) h

/-- An entry matched by some returned record ends up referencing a record. -/
theorem entryResolve_matched_mem (nkf : Nat → List Nat) (S : List Content) :
    ∀ (rs : List Content) (dc : DeclarativeContent),
      (∀ r ∈ rs, r ∈ S) →
      (∃ r ∈ rs, nkMatches nkf r dc.content = true) →
      (entryResolve nkf rs dc).content ∈ S := by
  intro rs
  induction rs with
  | nil => intro dc _ h; exact absurd h (by simp)
  | cons r rs ih =>
    intro dc hsub hex
    show (entryResolve nkf rs
      (if nkMatches nkf r dc.content then { dc with content := r } else dc)).content ∈ S
    by_cases hm : nkMatches nkf r dc.content = true
    · rw [if_pos hm]
      exact entryResolve_mem nkf S rs _
        (fun x hx => hsub x (List.mem_cons_of_mem _ hx))
        (hsub r (List.mem_cons_self _ _))
    · rw [if_neg hm]
      obtain ⟨r', hr', hm'⟩ := hex
      rcases List.mem_cons.mp hr' with h | h
      · exact absurd (h ▸ hm') hm
      · exact ih dc (fun x hx => hsub x (List.mem_cons_of_mem _ hx)) ⟨r', h, hm'⟩

/-- The scans never change an entry's artifact list. -/
theorem entryResolve_d_artifacts (nkf : Nat → List Nat) :
    ∀ (rs : List Content) (dc : DeclarativeContent),
      (entryResolve nkf rs dc).d_artifacts = dc.d_artifacts := by
  intro rs
  induction rs with
  | nil => intro dc; rfl
  | cons r rs ih =>
    intro dc
    show (entryResolve nkf rs
      (if nkMatches nkf r dc.content then { dc with content := r } else dc)).d_artifacts =
      dc.d_artifacts
    by_cases hm : nkMatches nkf r dc.content = true
    · rw [if_pos hm, ih]
    · rw [if_neg hm, ih]

/-- Every record returned by the issued queries is a saved row of the store. -/
theorem allResults_sub (nkf : Nat → List Nat) (db : Store)
    (batch : List (Option DeclarativeContent)) :
    ∀ r ∈ allResults nkf db batch, r ∈ db.contents := by
  have key : ∀ (tds : List (Nat × List (List (Nat × Nat)))) (init : List Content),
      (∀ x ∈ init, x ∈ db.contents) →
      ∀ r ∈ tds.foldl (fun acc td => acc ++ queryResults db td.1 td.2) init,
        r ∈ db.contents := by
    intro tds
    induction tds with
    | nil => intro init h; exact h
    | cons td tds ih =>
      intro init h
      rw [List.foldl_cons]
      apply ih
      intro x hx
      rcases List.mem_append.mp hx with h1 | h1
      · exact h x h1
      · exact (List.mem_filter.mp h1).1
  exact key (buildQ nkf batch) [] (by simp)

/-- The resolver acts entrywise on the batch. -/
theorem resolveBatch_map (nkf : Nat → List Nat) (db : Store)
    (batch : List (Option DeclarativeContent)) :
    resolveBatch nkf db batch =
      batch.map (fun e =>
        (allResults nkf db batch).foldl (fun e r => applyOne nkf r e) e) := by
  rw [resolveBatch_eq_fold, foldl_applyResult]

/-- Claim C4, amended: an entry's content reference is replaced exactly when
some returned record's natural-key fields (the fields of the record's own
type — the scan of lines 60-70 never checks the entry's concrete type) all
equal the corresponding attributes of the entry's candidate content; a
replaced entry references a saved store row, an unmatched entry keeps its
original unsaved candidate unchanged, and artifact lists are untouched. -/
theorem c4_resolution_characterization (nkf : Nat → List Nat) (db : Store)
    (batch : List (Option DeclarativeContent)) (i : Nat) (dc : DeclarativeContent)
    (hwf : ∀ c ∈ db.contents, c.adding = false)
    (hdc : batch[i]? = some (some dc))
    (hadd : dc.content.adding = true) :
    ∃ dc', (resolveBatch nkf db batch)[i]? = some (some dc') ∧
      dc'.d_artifacts = dc.d_artifacts ∧
      (dc' = dc ↔
        ∀ r ∈ allResults nkf db batch, nkMatches nkf r dc.content = false) ∧
      (dc' ≠ dc → dc'.content ∈ db.contents) := by
  refine ⟨entryResolve nkf (allResults nkf db batch) dc, ?_,
    entryResolve_d_artifacts nkf (allResults nkf db batch) dc, ?_, ?_⟩
  · rw [resolveBatch_map, List.getElem?_map, hdc]
    show some ((allResults nkf db batch).foldl (fun e r => applyOne nkf r e) (some dc)) = _
    rw [foldl_applyOne_some]
  · constructor
    · intro h
      by_contra hno
      push_neg at hno
      obtain ⟨r, hr, hne⟩ := hno
      have hm : nkMatches nkf r dc.content = true := by
        cases hb : nkMatches nkf r dc.content
        · exact absurd hb hne
        · rfl
      have hmem := entryResolve_matched_mem nkf db.contents
        (allResults nkf db batch) dc (allResults_sub nkf db batch) ⟨r, hr, hm⟩
      rw [h] at hmem
      rw [hwf dc.content hmem] at hadd
      exact absurd hadd (by simp)
    · intro h
      exact entryResolve_not_matched nkf (allResults nkf db batch) dc h
  · intro hne
    rcases Classical.em
        (∀ r ∈ allResults nkf db batch, nkMatches nkf r dc.content = false) with
      hall | hex
    · exact absurd (entryResolve_not_matched nkf (allResults nkf db batch) dc hall) hne
    · push_neg at hex
      obtain ⟨r, hr, hne'⟩ := hex
      have hm : nkMatches nkf r dc.content = true := by
        cases hb : nkMatches nkf r dc.content
        · exact absurd hb hne'
        · rfl
      exact entryResolve_matched_mem nkf db.contents (allResults nkf db batch) dc
        (allResults_sub nkf db batch) ⟨r, hr, hm⟩

/-- Witness for the amended C4 on a one-entry batch over a store holding a
matching saved record. -/
theorem c4_resolution_characterization_witness :
    (∀ c ∈ storeX.contents, c.adding = false) ∧
    ([some dcA][0]? = some (some dcA)) ∧
    dcA.content.adding = true ∧
    (∃ dc', (resolveBatch nkf1 storeX [some dcA])[0]? = some (some dc') ∧
      dc'.d_artifacts = dcA.d_artifacts ∧
      (dc' = dcA ↔
        ∀ r ∈ allResults nkf1 storeX [some dcA],
          nkMatches nkf1 r dcA.content = false) ∧
      (dc' ≠ dcA → dc'.content ∈ storeX.contents)) :=
  ⟨by decide, by decide, by decide,
    c4_resolution_characterization nkf1 storeX [some dcA] 0 dcA
      (by decide) (by decide) (by decide)⟩

/-! ## Claim C5, supporting lemmas -/

/-- One defaultdict update keeps the key list, only appending the type when
it is new. -/
theorem qInsert_keys (t : Nat) (uk : List (Nat × Nat)) :
    ∀ acc : List (Nat × List (List (Nat × Nat))),
      (qInsert t uk acc).map Prod.fst =
        if t ∈ acc.map Prod.fst then acc.map Prod.fst
        else acc.map Prod.fst ++ [t] := by
  intro acc
  induction acc with
  | nil => simp [qInsert]
  | cons p rest ih =>
    obtain ⟨t', d⟩ := p
    by_cases h : t' = t
    · subst h
      simp [qInsert]
    · rw [show qInsert t uk ((t', d) :: rest) = (t', d) :: qInsert t uk rest from by
        simp [qInsert, h]]
      rw [List.map_cons, ih, List.map_cons]
      by_cases hm : t ∈ rest.map Prod.fst
      · rw [if_pos hm, if_pos (List.mem_cons_of_mem _ hm)]
      · rw [if_neg hm, if_neg ?hnot, List.cons_append]
        case hnot =>
          intro hc
          rcases List.mem_cons.mp hc with hc | hc
          · exact h hc.symm
          · exact hm hc

/-- Membership in the defaultdict's key list after one update. -/
theorem qInsert_mem_keys (t : Nat) (uk : List (Nat × Nat))
    (acc : List (Nat × List (List (Nat × Nat)))) (u : Nat) :
    u ∈ (qInsert t uk acc).map Prod.fst ↔ u ∈ acc.map Prod.fst ∨ u = t := by
  rw [qInsert_keys]
  by_cases h : t ∈ acc.map Prod.fst
  · rw [if_pos h]
    constructor
    · exact Or.inl
    · rintro (hx | rfl)
      · exact hx
      · exact h
  · rw [if_neg h]
    simp [List.mem_append]

/-- One defaultdict update keeps the key list duplicate-free. -/
theorem qInsert_keys_nodup (t : Nat) (uk : List (Nat × Nat))
    (acc : List (Nat × List (List (Nat × Nat))))
    (h : (acc.map Prod.fst).Nodup) :
    ((qInsert t uk acc).map Prod.fst).Nodup := by
  rw [qInsert_keys]
  by_cases hm : t ∈ acc.map Prod.fst
  · rw [if_pos hm]; exact h
  · rw [if_neg hm]
    rw [List.nodup_append]
    exact ⟨h, List.nodup_singleton t, by simpa [List.disjoint_singleton] using hm⟩

/-- A type is a key of `content_q_by_type` exactly when some non-sentinel
entry of the batch has that concrete type. -/
theorem buildQ_mem_keys (nkf : Nat → List Nat) :
    ∀ (batch : List (Option DeclarativeContent))
      (acc : List (Nat × List (List (Nat × Nat)))) (t : Nat),
      (t ∈ (batch.foldl
        (fun acc e =>
          match e with
          | none => acc
          | some dc => qInsert dc.content.ctype (natural_key_dict nkf dc.content) acc)
        acc).map Prod.fst) ↔
      (t ∈ acc.map Prod.fst ∨
        ∃ dc : DeclarativeContent, some dc ∈ batch ∧ dc.content.ctype = t) := by
  intro batch
  induction batch with
  | nil => intro acc t; simp
  | cons e rest ih =>
    intro acc t
    cases e with
    | none =>
      rw [List.foldl_cons, ih]
      simp
    | some dc0 =>
      rw [List.foldl_cons]
      show (t ∈ (rest.foldl _
        (qInsert dc0.content.ctype (natural_key_dict nkf dc0.content) acc)).map Prod.fst) ↔ _
      rw [ih, qInsert_mem_keys]
      constructor
      · rintro ((hx | rfl) | ⟨dc, hdc, ht⟩)
        · exact Or.inl hx
        · exact Or.inr ⟨dc0, List.mem_cons_self _ _, rfl⟩
        · exact Or.inr ⟨dc, List.mem_cons_of_mem _ hdc, ht⟩
      · rintro (hx | ⟨dc, hdc, ht⟩)
        · exact Or.inl (Or.inl hx)
        · rcases List.mem_cons.mp hdc with h | h
          · have hd : dc = dc0 := Option.some.inj h
            exact Or.inl (Or.inr (by rw [← ht, hd]))
          · exact Or.inr ⟨dc, h, ht⟩

/-- The defaultdict key list built from a batch is duplicate-free. -/
theorem buildQ_keys_nodup_aux (nkf : Nat → List Nat) :
    ∀ (batch : List (Option DeclarativeContent))
      (acc : List (Nat × List (List (Nat × Nat)))),
      (acc.map Prod.fst).Nodup →
      ((batch.foldl
        (fun acc e =>
          match e with
          | none => acc
          | some dc => qInsert dc.content.ctype (natural_key_dict nkf dc.content) acc)
        acc).map Prod.fst).Nodup := by
  intro batch
  induction batch with
  | nil => intro acc h; exact h
  | cons e rest ih =>
    intro acc h
    cases e with
    | none => rw [List.foldl_cons]; exact ih acc h
    | some dc0 =>
      rw [List.foldl_cons]
      exact ih _ (qInsert_keys_nodup _ _ acc h)

/-- Claim C5, amended: for every batch, `query_existing_content_units`
issues exactly one existence query per concrete content type present among
the batch's non-sentinel entries — the per-type key list is duplicate-free
and holds precisely those types — and a type whose entries contribute only
empty natural-key dicts still gets its single query, whose predicate remains
the never-matching `Q(pk=None)` seed, so that query returns no record (the
code never queries with an empty predicate). -/
theorem c5_one_query_per_type (nkf : Nat → List Nat)
    (batch : List (Option DeclarativeContent)) :
    ((buildQ nkf batch).map Prod.fst).Nodup ∧
    (∀ t, t ∈ (buildQ nkf batch).map Prod.fst ↔
      ∃ dc : DeclarativeContent, some dc ∈ batch ∧ dc.content.ctype = t) ∧
    (∀ (db : Store) (t : Nat) (disj : List (List (Nat × Nat))),
      (t, disj) ∈ buildQ nkf batch → disj = [] → queryResults db t disj = []) := by
  refine ⟨buildQ_keys_nodup_aux nkf batch [] (by simp), ?_, ?_⟩
  · intro t
    rw [show buildQ nkf batch = batch.foldl
      (fun acc e =>
        match e with
        | none => acc
        | some dc => qInsert dc.content.ctype (natural_key_dict nkf dc.content) acc)
      [] from rfl]
    rw [buildQ_mem_keys]
    simp
  · intro db t disj _ hdisj
    subst hdisj
    simp [queryResults]

/-- Witness for the amended C5: the type-0 entry with an empty natural key
still yields the one seed-only query, and that query returns nothing. -/
theorem c5_one_query_per_type_witness :
    (0, ([] : List (List (Nat × Nat)))) ∈ buildQ nkf0 [some dc0] ∧
    queryResults store0 0 [] = [] :=
  ⟨by decide,
    (c5_one_query_per_type nkf0 [some dc0]).2.2 store0 0 [] (by decide) rfl⟩
